import Mathlib

/-!
# Verification of `toytools.batchrun.launch`

Shallow embedding of `src/toytools/batchrun/launch.py` (the batch launcher:
`ResourceManager`, `Task`, `Launcher`) and proofs of the spec's claims about it.

Python strings that undergo tokenization are modelled as `List Char`;
Python `time.time()` float values as `ℚ`; `None`-able values as `Option`;
exceptions as `Except`.
-/

namespace Batchrun

/-- Python's whitespace characters for `str.split()` with no argument
(ASCII subset: space, tab, newline, carriage return, vertical tab, form feed). -/
def isWs (c : Char) : Bool :=
  c = ' ' || c = '\t' || c = '\n' || c = '\r' || c = Char.ofNat 11 || c = Char.ofNat 12

theorem length_dropWhile_le {α : Type} (p : α → Bool) (l : List α) :
    (l.dropWhile p).length ≤ l.length := by
  induction l with
  | nil => simp [List.dropWhile]
  | cons a l ih =>
    by_cases h : p a = true
    · simp only [List.dropWhile, h]
      exact Nat.le_succ_of_le ih
    · simp [List.dropWhile, h]

/-- Python `s.split()` (no separator): split on runs of whitespace, dropping
empty tokens. -/
def splitWs : List Char → List (List Char)
  | [] => []
  | c :: cs =>
    if isWs c then splitWs cs
    else (c :: cs.takeWhile (fun x => !isWs x)) :: splitWs (cs.dropWhile (fun x => !isWs x))
termination_by l => l.length
decreasing_by
  · simp only [List.length_cons]; omega
  · simp only [List.length_cons]
    have := length_dropWhile_le (fun x => !isWs x) cs
    omega

/-- Python `" ".join(tokens)`. -/
def joinSpace : List (List Char) → List Char
  | [] => []
  | [t] => t
  | t :: t2 :: ts => t ++ ' ' :: joinSpace (t2 :: ts)

/-- A `Task.cmd` value: Python allows either a single string or a list
(whose elements are rendered through `str`; we model them as strings). -/
inductive Cmd where
  | str : List Char → Cmd
  | list : List (List Char) → Cmd
deriving DecidableEq

/-- `Task.cmd_str` (launch.py lines 88-90):
`cmd_l = self.cmd.split() if isinstance(self.cmd, str) else self.cmd`;
`return " ".join(map(str, cmd_l))`. -/
def cmd_str : Cmd → List Char
  | Cmd.str s => joinSpace (splitWs s)
  | Cmd.list l => joinSpace l

/-- `Task.cmd_list` (launch.py lines 92-93): `return self.cmd_str().split()`. -/
def cmd_list (c : Cmd) : List (List Char) :=
  splitWs (cmd_str c)

/-- Python `str(x)` on an optional string: `str(None)` is the four-character
string `"None"`; on a string it is the identity. -/
def pyStrOpt : Option (List Char) → List Char
  | none => 'N' :: 'o' :: 'n' :: 'e' :: []
  | some s => s

/-- Python `a or b` on strings: `a` if `a` is truthy (non-empty), else `b`. -/
def pyOrStr (a b : List Char) : List Char :=
  if a = [] then b else a

/-- `Task.__init__` line 86: `self.identifier = str(identifier) or self.cmd_str()`. -/
def mkIdentifier (identifier : Option (List Char)) (cmd : Cmd) : List Char :=
  pyOrStr (pyStrOpt identifier) (cmd_str cmd)

/-! ## The resource pool (`ResourceManager`, launch.py lines 45-63)

The pool's tokens live in an `asyncio.Queue`; `get` pops from the front and
`put` appends at the back, so the queue is a `List ℕ` (tokens are the CUDA
device indices). -/

abbrev Token := ℕ

/-- The body of `allocate`'s critical section (lines 56-59), executed
atomically under `self._lock`:
`if self._resources.qsize() >= quantity: for _ in range(quantity): items.append(await self._resources.get())`.
Returns (items appended, queue afterwards). -/
def criticalSection (free : List Token) (quantity : ℕ) : List Token × List Token :=
  if quantity ≤ free.length then (free.take quantity, free.drop quantity)
  else ([], free)

/-- State of the pool together with the token groups currently granted to
in-flight allocations (each `held` entry is one allocation's `items` list). -/
structure PoolState where
  free : List Token
  held : List (List Token)
deriving DecidableEq

/-- One scheduler step of the pool system.  `acquire` is one successful pass
through `allocate`'s critical section (an unsuccessful pass leaves the state
unchanged and is not a step); `release` is the post-`yield` loop
`for item in items: await self._resources.put(item)` of one allocation. -/
inductive Step : PoolState → PoolState → Prop
  | acquire (s : PoolState) (quantity : ℕ) (hq : quantity ≤ s.free.length) :
      Step s ⟨(criticalSection s.free quantity).2, (criticalSection s.free quantity).1 :: s.held⟩
  | release (s : PoolState) (i : ℕ) (hi : i < s.held.length) :
      Step s ⟨s.free ++ s.held.get ⟨i, hi⟩, s.held.eraseIdx i⟩

/-- States reachable from a pool initialised with `ResourceManager.__init__`
on a token list (lines 46-50: every item is `put_nowait` into the queue). -/
inductive Reachable (init : List Token) : PoolState → Prop
  | init : Reachable init ⟨init, []⟩
  | step {s t : PoolState} : Reachable init s → Step s t → Reachable init t

/-- The retry loop of `allocate` (lines 54-60) as seen by a single caller
with a static pool: each unit of fuel is one pass through the `while`
(lock, availability check, `asyncio.sleep(1)`).  `some (items, rest)` means
the loop exited with the grant; `none` means the caller is still waiting
when fuel runs out.  With `quantity = 0` the `while len(items) < quantity`
condition is false at entry, so the grant is immediate even with no fuel. -/
def allocateLoop : ℕ → List Token → ℕ → Option (List Token × List Token)
  | _, free, 0 => some ([], free)
  | 0, _, _ + 1 => none
  | fuel + 1, free, q + 1 =>
    if q + 1 ≤ free.length then some (free.take (q + 1), free.drop (q + 1))
    else allocateLoop fuel free (q + 1)

/-- The whole `allocate` context manager around a body (the `async with`
block of `_launch_task`), for a caller whose grant succeeds at once.
`yield items` has no `try`/`finally` around it (lines 61-63), so when the
body raises, the exception propagates out of the generator and the release
loop `for item in items: await self._resources.put(item)` never runs. -/
def allocateWith {α : Type} (free : List Token) (quantity : ℕ)
    (body : List Token → Except (List Char) α) : Except (List Char) α × List Token :=
  let items := free.take quantity
  let rest := free.drop quantity
  match body items with
  | Except.ok a => (Except.ok a, rest ++ items)
  | Except.error e => (Except.error e, rest)

/-! ## Tasks and the launcher (`Task`, `Launcher`, launch.py lines 66-193) -/

/-- The fields of `Task` that the launcher's control flow reads.  `identifier`
and `prepare-fn` effects are modelled where used. -/
structure Task where
  cmd : Cmd
  identifier : Option (List Char)
  cuda_quantity : ℕ
deriving DecidableEq

/-- Line 159 of `_launch_task`:
`status = "SUCCESS" if proc.returncode == 0 else "FAIL"`.  The expression
reads only `proc.returncode`; the task is passed to mirror the enclosing
scope. -/
def taskStatus (task : Task) (returncode : ℤ) : String :=
  if returncode = 0 then "SUCCESS" else "FAIL"

/-- Line 163: the guard deciding whether the `END_QUICKLY` sentinel file is
written: `if cost_time < 30`.  `cost_time = time.time() - start_time` is a
float, modelled as `ℚ`. -/
def writesSentinel (cost_time : ℚ) : Bool :=
  cost_time < 30

/-- The provenance record `full_info` serialized to
`task_information/full_description.json`.  At creation (lines 130-137) its
keys are `cmd_str`, `cwd`, `cmd_list`, `env`, `host`, `launch_time` — no
`pid`, no `end_time`; `full_info['pid']` is added after spawn (line 184) and
`full_info['end_time']` after completion (line 167). -/
structure ExecRecord where
  cmdStr : List Char
  cmdList : List (List Char)
  launchTime : ℚ
  pid : Option ℕ
  endTime : Option ℚ
deriving DecidableEq

/-- The pre-run `full_info` of lines 130-137: no pid, no end time. -/
def initialRecord (task : Task) (launchTime : ℚ) : ExecRecord :=
  { cmdStr := cmd_str task.cmd
    cmdList := cmd_list task.cmd
    launchTime := launchTime
    pid := none
    endTime := none }

/-- What one completed task execution produces, given the environment's
responses (subprocess pid, exit code, and the two clock readings). -/
structure LaunchOutcome where
  status : String
  sentinel : Bool
  writes : List ExecRecord
deriving DecidableEq

/-- `_launch_task` (lines 117-174) together with `_run_single_process`
(lines 176-193) for a task whose subprocess spawns and terminates:
the three `full_description.json` checkpoint writes in program order
(each is an `open(..., "w")` + `json.dump`, i.e. a full overwrite),
the status classification, and the fast-exit sentinel decision. -/
def launchTask (task : Task) (pid : ℕ) (returncode : ℤ)
    (startTime endTime : ℚ) : LaunchOutcome :=
  let r0 := initialRecord task startTime
  let r1 := { r0 with pid := some pid }
  let cost_time := endTime - startTime
  let r2 := { r1 with endTime := some endTime }
  { status := taskStatus task returncode
    sentinel := writesSentinel cost_time
    writes := [r0, r1, r2] }

/-- `Launcher._run` (lines 112-115): one `_launch_task` job per task, in
enumeration order, collected by `asyncio.gather`.  The environment is an
assignment of pid/returncode/times to each task index. -/
def gatherStatuses (tasks : List Task) (returncodeOf : ℕ → ℤ) : List String :=
  tasks.enum.map fun ti => taskStatus ti.2 (returncodeOf ti.1)

/-- `Launcher.run` (lines 108-110): sets `add_timestamp_to_log`, calls
`asyncio.run(self._run(tasks))` and falls off the end — a Python function
body with no `return` statement evaluates to `None`, modelled as `none` of
the result-mapping type the spec promises.  The statuses `gather` collects
inside `_run` are also discarded (`_run` itself has no `return`). -/
def Launcher.runValue (tasks : List Task) (returncodeOf : ℕ → ℤ) :
    Option (List (List Char × String)) :=
  let _statuses := gatherStatuses tasks returncodeOf
  none

/-! ## Pool conservation lemmas -/

theorem flatten_eraseIdx_perm {α : Type} :
    ∀ (l : List (List α)) (i : ℕ) (hi : i < l.length),
      (l.get ⟨i, hi⟩ ++ (l.eraseIdx i).flatten).Perm l.flatten
  | x :: xs, 0, _ => by simp [List.flatten_cons]
  | x :: xs, j + 1, hj => by
    have hj2 : j < xs.length := by
      simp only [List.length_cons] at hj; omega
    have ih := flatten_eraseIdx_perm xs j hj2
    simp only [List.get_cons_succ, List.eraseIdx_cons_succ, List.flatten_cons]
    refine List.Perm.trans ?_ (List.Perm.append_left x ih)
    rw [← List.append_assoc, ← List.append_assoc]
    exact List.Perm.append_right _ List.perm_append_comm

theorem step_perm {s t : PoolState} (h : Step s t) :
    (t.free ++ t.held.flatten).Perm (s.free ++ s.held.flatten) := by
  cases h with
  | acquire q hq =>
    simp only [criticalSection, if_pos hq, List.flatten_cons]
    have h2 : (List.take q s.free ++ List.drop q s.free) ++ s.held.flatten
        = s.free ++ s.held.flatten := by
      rw [List.take_append_drop]
    rw [← h2, ← List.append_assoc]
    exact List.Perm.append_right _ List.perm_append_comm
  | release i hi =>
    rw [List.append_assoc]
    exact List.Perm.append_left s.free (flatten_eraseIdx_perm s.held i hi)

/-- Token conservation: in every reachable state, the free queue together
with all granted groups is a permutation of the initial token list. -/
theorem reachable_perm {init : List Token} {s : PoolState}
    (h : Reachable init s) : (s.free ++ s.held.flatten).Perm init := by
  induction h with
  | init => simp
  | step _ hstep ih => exact (step_perm hstep).trans ih

theorem reachable_inflight_le {init : List Token} {s : PoolState}
    (h : Reachable init s) : s.held.flatten.length ≤ init.length := by
  have hp := (reachable_perm h).length_eq
  rw [List.length_append] at hp
  omega

theorem reachable_free_le {init : List Token} {s : PoolState}
    (h : Reachable init s) : s.free.length ≤ init.length := by
  have hp := (reachable_perm h).length_eq
  rw [List.length_append] at hp
  omega

theorem reachable_nodup {init : List Token} {s : PoolState}
    (h : Reachable init s) (hn : init.Nodup) : (s.free ++ s.held.flatten).Nodup :=
  (reachable_perm h).symm.nodup hn

theorem held_pairwise_disjoint {init : List Token} {s : PoolState}
    (h : Reachable init s) (hn : init.Nodup) : s.held.Pairwise List.Disjoint := by
  have h2 : s.held.flatten.Nodup := List.Nodup.of_append_right (reachable_nodup h hn)
  exact (List.nodup_flatten.mp h2).2

theorem criticalSection_all_or_nothing (f : List Token) (q : ℕ) :
    (criticalSection f q).1.length = 0 ∨ (criticalSection f q).1.length = q := by
  unfold criticalSection
  by_cases h : q ≤ f.length
  · right
    simp [h, List.length_take, Nat.min_eq_left h]
  · left
    simp [h]

/-- **C1.** For every pool constructed from a list of N tokens and every
interleaving of allocate and release steps, the number of tokens granted and
not yet released never exceeds N; with distinct tokens, no token is held by
two concurrent holders at the same time; and the critical section of
`ResourceManager.allocate` removes either zero tokens or exactly `quantity`
tokens — never a partial grant. -/
theorem C1_pool_safety (init : List Token) (s : PoolState) (h : Reachable init s) :
    s.held.flatten.length ≤ init.length ∧
    (init.Nodup → ∀ (i j : Fin s.held.length), i ≠ j →
      ∀ tok ∈ s.held.get i, tok ∉ s.held.get j) ∧
    (∀ (f : List Token) (q : ℕ),
      (criticalSection f q).1.length = 0 ∨ (criticalSection f q).1.length = q) := by
  refine ⟨reachable_inflight_le h, ?_, criticalSection_all_or_nothing⟩
  intro hn i j hij tok hti htj
  have hpg := List.pairwise_iff_get.mp (held_pairwise_disjoint h hn)
  rcases hij.lt_or_lt with hlt | hlt
  · exact hpg i j hlt hti htj
  · exact hpg j i hlt htj hti

/-- Witness for C1: the pool `[0, 1]` after one allocation of quantity 1,
which is reachable and holds token `0` in one group. -/
theorem C1_pool_safety_witness :
    ([[0]] : List (List Token)).flatten.length ≤ ([0, 1] : List Token).length ∧
    (([0, 1] : List Token).Nodup →
      ∀ (i j : Fin ([[0]] : List (List Token)).length), i ≠ j →
      ∀ tok ∈ ([[0]] : List (List Token)).get i,
        tok ∉ ([[0]] : List (List Token)).get j) ∧
    (∀ (f : List Token) (q : ℕ),
      (criticalSection f q).1.length = 0 ∨ (criticalSection f q).1.length = q) :=
  C1_pool_safety [0, 1] ⟨[1], [[0]]⟩
    (Reachable.step Reachable.init (Step.acquire ⟨[0, 1], []⟩ 1 (by simp)))

/-- **C2** fails on the code: `allocate` has no `try`/`finally` around its
`yield`, so when the body of the `async with` block raises (pre-hook failure
or spawn failure), the release loop is skipped and the granted tokens are
lost.  First conjunct: from pool `[0]`, a quantity-1 allocation whose body
raises ends with an empty pool — token `0` leaked.  Second conjunct: the
same allocation with a normally returning body does put the token back. -/
theorem C2_token_leak_on_body_error :
    allocateWith [0] 1
        (fun _ => (Except.error ['b', 'o', 'o', 'm'] : Except (List Char) Unit))
      = (Except.error ['b', 'o', 'o', 'm'], []) ∧
    allocateWith [0] 1 (fun _ => (Except.ok () : Except (List Char) Unit))
      = (Except.ok (), [0]) :=
  ⟨rfl, rfl⟩

theorem allocateLoop_blocked (fuel : ℕ) (free : List Token) (q : ℕ)
    (h : free.length < q) : allocateLoop fuel free q = none := by
  induction fuel with
  | zero =>
    cases q with
    | zero => omega
    | succ n => rfl
  | succ f ih =>
    cases q with
    | zero => omega
    | succ n =>
      have hn : ¬(n + 1 ≤ free.length) := by omega
      simp only [allocateLoop, if_neg hn]
      exact ih

/-- **C3 (amended).** A request for `quantity > N` is never granted and never
raises: in every reachable pool state the critical section takes nothing, and
the retry loop polls forever (returns `none` at every fuel) — the code has no
eager rejection of over-large requests. -/
theorem C3_overlarge_request_blocks (init : List Token) (s : PoolState)
    (h : Reachable init s) (q : ℕ) (hq : init.length < q) :
    criticalSection s.free q = ([], s.free) ∧
    ∀ fuel, allocateLoop fuel s.free q = none := by
  have hf : s.free.length < q := lt_of_le_of_lt (reachable_free_le h) hq
  constructor
  · unfold criticalSection
    rw [if_neg (by omega)]
  · intro fuel
    exact allocateLoop_blocked fuel s.free q hf

/-- Witness for C3 (amended): pool `[0]` in its initial state, request of 2. -/
theorem C3_overlarge_request_blocks_witness :
    criticalSection ([0] : List Token) 2 = ([], [0]) ∧
    ∀ fuel, allocateLoop fuel ([0] : List Token) 2 = none :=
  C3_overlarge_request_blocks [0] ⟨[0], []⟩ Reachable.init 2 (by decide)

/-- **C3 as stated is false**: on the pool `[0]` (N = 1), a request for 2
tokens is still unanswered after 100 passes of the retry loop (100 polling
seconds), and no exception path exists in `allocate` — the request blocks
instead of being rejected eagerly. -/
theorem C3_counterexample :
    allocateLoop 100 ([0] : List Token) 2 = none := by
  decide

/-- **C10.** `allocate` with `quantity = 0` never blocks: the
`while len(items) < quantity` condition is false at entry even with zero
polling fuel, so the grant is the empty list and the pool is untouched; the
release loop over the empty grant likewise leaves the pool unchanged. -/
theorem C10_zero_quantity_alloc (free : List Token) (fuel : ℕ) :
    allocateLoop fuel free 0 = some ([], free) ∧
    allocateWith free 0
        (fun items => (Except.ok items : Except (List Char) (List Token)))
      = (Except.ok [], free) := by
  constructor
  · cases fuel <;> rfl
  · simp [allocateWith]

/-! ## Tokenization lemmas (for the `cmd_str`/`cmd_list` claims) -/

/-- Every token produced by Python `split()` is non-empty and
whitespace-free. -/
theorem splitWs_tokens (s : List Char) :
    ∀ t ∈ splitWs s, t ≠ [] ∧ ∀ c ∈ t, isWs c = false := by
  induction s using splitWs.induct with
  | case1 => simp [splitWs]
  | case2 c cs hc ih =>
    simp only [splitWs, if_pos hc]
    exact ih
  | case3 c cs hc ih =>
    simp only [splitWs, if_neg hc]
    intro t ht
    rcases List.mem_cons.mp ht with h | h
    · subst h
      refine ⟨by simp, ?_⟩
      intro x hx
      rcases List.mem_cons.mp hx with h2 | h2
      · subst h2
        simpa using hc
      · have := List.mem_takeWhile_imp h2
        simpa using this
    · exact ih t h

theorem takeWhile_all_nonWs (xs : List Char) (hx : ∀ c ∈ xs, isWs c = false) :
    xs.takeWhile (fun x => !isWs x) = xs := by
  induction xs with
  | nil => rfl
  | cons a xs ih =>
    have ha : isWs a = false := hx a (by simp)
    simp [List.takeWhile_cons, ha, ih (fun c hc => hx c (by simp [hc]))]

theorem dropWhile_all_nonWs (xs : List Char) (hx : ∀ c ∈ xs, isWs c = false) :
    xs.dropWhile (fun x => !isWs x) = [] := by
  induction xs with
  | nil => rfl
  | cons a xs ih =>
    have ha : isWs a = false := hx a (by simp)
    simp [List.dropWhile_cons, ha, ih (fun c hc => hx c (by simp [hc]))]

/-- `takeWhile`/`dropWhile` of "not whitespace" on a whitespace-free prefix
followed by a space: the prefix is taken whole and the rest starts at the
space. -/
theorem takeDropWhile_token (xs rest : List Char) (hx : ∀ c ∈ xs, isWs c = false) :
    (xs ++ ' ' :: rest).takeWhile (fun x => !isWs x) = xs ∧
    (xs ++ ' ' :: rest).dropWhile (fun x => !isWs x) = ' ' :: rest := by
  induction xs with
  | nil =>
    constructor <;> simp [List.takeWhile, List.dropWhile, isWs]
  | cons a xs ih =>
    have ha : isWs a = false := hx a (by simp)
    have ih2 := ih (fun c hc => hx c (by simp [hc]))
    constructor
    · simp [List.takeWhile_cons, ha, ih2.1]
    · simp [List.dropWhile_cons, ha, ih2.2]

/-- Re-tokenizing a space-join of non-empty whitespace-free tokens recovers
exactly the tokens. -/
theorem splitWs_joinSpace (tokens : List (List Char))
    (h : ∀ t ∈ tokens, t ≠ [] ∧ ∀ c ∈ t, isWs c = false) :
    splitWs (joinSpace tokens) = tokens := by
  induction tokens with
  | nil => simp [joinSpace, splitWs]
  | cons t ts ih =>
    obtain ⟨hne, hws⟩ := h t (by simp)
    cases t with
    | nil => exact absurd rfl hne
    | cons c cs =>
      have hc : isWs c = false := hws c (by simp)
      have hcs : ∀ x ∈ cs, isWs x = false := fun x hx => hws x (by simp [hx])
      cases ts with
      | nil =>
        simp only [joinSpace, splitWs, hc, Bool.false_eq_true, if_false]
        rw [takeWhile_all_nonWs cs hcs, dropWhile_all_nonWs cs hcs]
        simp [splitWs]
      | cons t2 ts2 =>
        have ih2 := ih (fun u hu => h u (by simp [hu]))
        have htd := takeDropWhile_token cs (joinSpace (t2 :: ts2)) hcs
        simp only [joinSpace, List.cons_append, splitWs, hc, Bool.false_eq_true,
          if_false, htd.1, htd.2]
        have hsp : isWs ' ' = true := by decide
        simp only [splitWs, if_pos hsp]
        rw [ih2]

/-! ## Launcher result lemmas -/

theorem gatherStatuses_length (tasks : List Task) (rc : ℕ → ℤ) :
    (gatherStatuses tasks rc).length = tasks.length := by
  simp [gatherStatuses]

theorem gatherStatuses_get (tasks : List Task) (rc : ℕ → ℤ) (i : ℕ)
    (hi : i < tasks.length) :
    (gatherStatuses tasks rc).get ⟨i, by rw [gatherStatuses_length]; exact hi⟩
      = taskStatus (tasks.get ⟨i, hi⟩) (rc i) := by
  simp [gatherStatuses]

/-- **C4 as stated is false**: `Launcher.run` (and `_run`) has no `return`
statement, so on a concrete one-task list its value is Python `None`, not a
mapping from task identifier to TaskResult. -/
theorem C4_counterexample :
    Launcher.runValue [⟨Cmd.str ['l', 's'], none, 1⟩] (fun _ => 0) = none :=
  rfl

/-- **C4 (amended).** `Launcher.run` launches each task exactly once — the
job list built in `_run` has exactly one `_launch_task` per task, in
submission order, and the i-th gathered status is the i-th task's status —
but `run` returns `None` to the caller rather than a mapping of results. -/
theorem C4_run_one_job_per_task (tasks : List Task) (rc : ℕ → ℤ) (i : ℕ)
    (hi : i < tasks.length) :
    Launcher.runValue tasks rc = none ∧
    (gatherStatuses tasks rc).length = tasks.length ∧
    (gatherStatuses tasks rc).get ⟨i, by rw [gatherStatuses_length]; exact hi⟩
      = taskStatus (tasks.get ⟨i, hi⟩) (rc i) :=
  ⟨rfl, gatherStatuses_length tasks rc, gatherStatuses_get tasks rc i hi⟩

/-- Witness for C4 (amended): a single task with exit code 37. -/
theorem C4_run_one_job_per_task_witness :
    Launcher.runValue [⟨Cmd.str ['l', 's'], none, 1⟩] (fun _ => 37) = none ∧
    (gatherStatuses [⟨Cmd.str ['l', 's'], none, 1⟩] (fun _ => 37)).length = 1 ∧
    (gatherStatuses [⟨Cmd.str ['l', 's'], none, 1⟩] (fun _ => 37)).get ⟨0, by decide⟩
      = taskStatus ⟨Cmd.str ['l', 's'], none, 1⟩ 37 :=
  C4_run_one_job_per_task [⟨Cmd.str ['l', 's'], none, 1⟩] (fun _ => 37) 0
    (by decide)

/-- **C5.** A task is classified `"SUCCESS"` exactly when the subprocess
exit code is 0 and `"FAIL"` exactly when it is nonzero; the classification
is independent of the requested resource quantity, and is exactly the status
recorded by `_launch_task`. -/
theorem C5_status_classification (task : Task) (rc : ℤ) (q : ℕ) :
    (taskStatus task rc = "SUCCESS" ↔ rc = 0) ∧
    (taskStatus task rc = "FAIL" ↔ rc ≠ 0) ∧
    taskStatus { task with cuda_quantity := q } rc = taskStatus task rc ∧
    (∀ (pid : ℕ) (t1 t2 : ℚ),
      (launchTask task pid rc t1 t2).status = taskStatus task rc) := by
  refine ⟨?_, ?_, rfl, fun pid t1 t2 => rfl⟩ <;>
    · unfold taskStatus
      by_cases h : rc = 0 <;> simp [h]

/-- **C6.** The fast-exit sentinel (`END_QUICKLY`) is written if and only if
the task's elapsed time is strictly below the 30-second threshold. -/
theorem C6_sentinel_iff_fast (task : Task) (pid : ℕ) (rc : ℤ) (t1 t2 : ℚ) :
    (launchTask task pid rc t1 t2).sentinel = true ↔ t2 - t1 < 30 := by
  simp [launchTask, writesSentinel]

/-- **C7 fails on the code**: with `identifier` omitted (`None`),
`str(identifier) or self.cmd_str()` evaluates `str(None)`, the non-empty —
hence truthy — string `"None"`, so the identifier becomes `"None"` instead
of the rendering `cmd_str()` of the command (here `"ls"`). -/
theorem C7_default_identifier_is_None_string :
    mkIdentifier none (Cmd.str ['l', 's']) = ['N', 'o', 'n', 'e'] ∧
    cmd_str (Cmd.str ['l', 's']) = ['l', 's'] ∧
    (['N', 'o', 'n', 'e'] : List Char) ≠ ['l', 's'] := by
  refine ⟨rfl, ?_, by decide⟩
  simp [cmd_str, splitWs, joinSpace, isWs]

/-- **C8.** The provenance record written before the subprocess is spawned
carries no pid and no end time; after completion it carries the pid and the
end time; and the three checkpoint writes of `full_description.json` happen
in that strict order, each as a full overwrite of the whole record (each
list element below is one complete `json.dump` to the freshly truncated
file). -/
theorem C8_provenance_checkpoints (task : Task) (pid : ℕ) (rc : ℤ) (t1 t2 : ℚ) :
    (launchTask task pid rc t1 t2).writes =
      [initialRecord task t1,
       { initialRecord task t1 with pid := some pid },
       { initialRecord task t1 with pid := some pid, endTime := some t2 }] ∧
    (initialRecord task t1).pid = none ∧
    (initialRecord task t1).endTime = none ∧
    (launchTask task pid rc t1 t2).writes.map ExecRecord.pid
      = [none, some pid, some pid] ∧
    (launchTask task pid rc t1 t2).writes.map ExecRecord.endTime
      = [none, none, some t2] :=
  ⟨rfl, rfl, rfl, rfl, rfl⟩

/-- **C9 as stated is false**: for the argument-list command `["a", ""]`
(an empty argument), `cmd_str` is `"a "` but joining `cmd_list = ["a"]` with
spaces gives `"a"` — the join of the tokenization is not the canonical
string. -/
theorem C9_counterexample :
    joinSpace (cmd_list (Cmd.list [['a'], []])) ≠ cmd_str (Cmd.list [['a'], []]) := by
  simp [cmd_list, cmd_str, joinSpace, splitWs, isWs, List.takeWhile, List.dropWhile]

/-- **C9 (amended).** `cmd_list` is the whitespace tokenization of
`cmd_str`; re-tokenizing the space-join of `cmd_list` recovers `cmd_list`
exactly; and the join of `cmd_list` equals `cmd_str` whenever the command
was given as a single string — or as an argument list whose elements are
non-empty and whitespace-free (an argument list with empty or
space-containing elements may denormalize, as the counterexample shows). -/
theorem C9_tokenization_roundtrip (c : Cmd) (s : List Char)
    (l : List (List Char))
    (hl : ∀ t ∈ l, t ≠ [] ∧ ∀ ch ∈ t, isWs ch = false) :
    cmd_list c = splitWs (cmd_str c) ∧
    splitWs (joinSpace (cmd_list c)) = cmd_list c ∧
    joinSpace (cmd_list (Cmd.str s)) = cmd_str (Cmd.str s) ∧
    joinSpace (cmd_list (Cmd.list l)) = cmd_str (Cmd.list l) := by
  refine ⟨rfl, ?_, ?_, ?_⟩
  · exact splitWs_joinSpace (cmd_list c) (splitWs_tokens (cmd_str c))
  · show joinSpace (splitWs (joinSpace (splitWs s))) = joinSpace (splitWs s)
    rw [splitWs_joinSpace (splitWs s) (splitWs_tokens s)]
  · show joinSpace (splitWs (joinSpace l)) = joinSpace l
    rw [splitWs_joinSpace l hl]

/-- Witness for C9 (amended): the string command `"echo  hi"` (double
space), the list command `["echo", "hi"]`, and an arbitrary `Cmd`. -/
theorem C9_tokenization_roundtrip_witness :
    cmd_list (Cmd.str ['a', ' ', ' ', 'b'])
        = splitWs (cmd_str (Cmd.str ['a', ' ', ' ', 'b'])) ∧
    splitWs (joinSpace (cmd_list (Cmd.str ['a', ' ', ' ', 'b'])))
        = cmd_list (Cmd.str ['a', ' ', ' ', 'b']) ∧
    joinSpace (cmd_list (Cmd.str ['x', ' ', 'y']))
        = cmd_str (Cmd.str ['x', ' ', 'y']) ∧
    joinSpace (cmd_list (Cmd.list [['a'], ['b']]))
        = cmd_str (Cmd.list [['a'], ['b']]) :=
  C9_tokenization_roundtrip (Cmd.str ['a', ' ', ' ', 'b']) ['x', ' ', 'y']
    [['a'], ['b']] (by decide)

end Batchrun
